import Mathlib

/-!
Shallow embedding of `src/mcp-client.py` (an MCP chat client with two
provider paths, `anthropic` and `openai`).

Modelling conventions:
* `Args` stands for the opaque structured argument object a model attaches
  to a tool call (Python `dict`); it is represented by an abstract `String`
  payload, and the library operations on it (`json.loads`, `json.dumps`,
  Python `str`, truthiness) are fields of the `Env` record, so every theorem
  quantifies over them.
* The model endpoint is scripted: each `create` call consumes the next
  element of a finite `script` list.  An exhausted script yields the
  modelling-artifact error `QErr.noResponse`; theorems about complete runs
  therefore take the run's success as a hypothesis or supply a long enough
  script.
* Python exceptions are `Except` errors; an uncaught exception inside
  `process_query` is an `Except.error` result.
* The `events` field is a ghost trace recording, in program order, every
  `create` call (`Event.submit`), every `session.call_tool` call
  (`Event.invoke`) and every append of a tool-result-bearing message to the
  conversation (`Event.resultTurn`).
-/

/-- Opaque representation of a structured tool-argument object. -/
abbrev Args := String

/-- Result object returned by `session.call_tool`; only its `.content`
field is consumed by the client. -/
structure CallToolResult where
  content : String
  deriving DecidableEq

/-- Ambient operations the Python code delegates to libraries:
the tool host (`session.call_tool`), `json.loads` / `json.dumps`,
Python `str()` and truthiness on argument objects, and the wall-clock
timestamp used by `format_message`. -/
structure Env where
  host : String → Args → Except String CallToolResult
  jsonLoads : String → Except String Args
  jsonDumps : Args → String
  pyStr : Args → String
  argsTruthy : Args → Bool
  ts : String

/-- `format_message` from the source: a timestamped, role-tagged line with a
trailing newline (timestamp supplied by the environment). -/
def format_message (ts : String) (role : String) (content : String) (is_tool : Bool) : String :=
  let tag := if is_tool then "[" ++ ts ++ " Tool]"
    else if role = "assistant" then "[" ++ ts ++ " AI]"
    else "[" ++ ts ++ " User]"
  tag ++ " " ++ content ++ "\n"

/-- Ghost trace events of one `process_query` run. -/
inductive Event where
  | submit
  | invoke (name : String) (args : Args)
  | resultTurn
  deriving DecidableEq

/-- Errors that abort one query (Python exceptions propagating out of
`process_query`), plus the script-exhaustion modelling artifact. -/
inductive QErr where
  | toolError (msg : String)
  | noResponse
  | badContent
  deriving DecidableEq

/-- Number of `create` (submit) calls in a trace. -/
def countSubmit (es : List Event) : Nat :=
  es.countP fun e => match e with | .submit => true | _ => false

/-- Number of `session.call_tool` invocations in a trace. -/
def countInvoke (es : List Event) : Nat :=
  es.countP fun e => match e with | .invoke _ _ => true | _ => false

/-- Number of tool-result message appends in a trace. -/
def countResultTurn (es : List Event) : Nat :=
  es.countP fun e => match e with | .resultTurn => true | _ => false

/-! ### Variant A: the anthropic path -/

/-- One content block of an Anthropic response: a text block, or a
`tool_use` block with a name, a structured input and an optional (Python
`hasattr`) `text` attribute. -/
inductive AContent where
  | text (t : String)
  | toolUse (name : String) (input : Args) (textAttr : Option String)
  deriving DecidableEq

/-- An Anthropic response: a list of content blocks. -/
structure AnthResponse where
  content : List AContent
  deriving DecidableEq

/-- A message of the anthropic-path conversation (`messages` list entries,
which the source builds only with roles `user` and `assistant`). -/
inductive AMsg where
  | user (content : String)
  | assistant (content : String)
  deriving DecidableEq

/-- State threaded through `_process_anthropic_query`'s block loop:
conversation, transcript segments, remaining scripted responses, ghost
trace. -/
structure AnthState where
  messages : List AMsg
  finalText : List String
  script : List AnthResponse
  events : List Event
  deriving DecidableEq

/-- `response.content[0].text` on a follow-up response: fails (Python
`IndexError` / `AttributeError`) when the content list is empty or its
first block has no `text` attribute. -/
def firstText : List AContent → Except QErr String
  | [] => .error .badContent
  | AContent.text t :: _ => .ok t
  | AContent.toolUse _ _ (some t) :: _ => .ok t
  | AContent.toolUse _ _ none :: _ => .error .badContent

/-- The `for content in response.content:` loop of
`_process_anthropic_query`.  A text block is appended to the transcript; a
`tool_use` block invokes the tool, appends an invocation annotation, an
optional assistant turn (when the block has a truthy `text` attribute) and
a user turn carrying `result.content`, then performs a fresh `create` call
(consuming the next scripted response) and appends that response's
`content[0].text`.  Iteration continues over the remaining blocks of the
ORIGINAL response (reassigning `response` in Python does not change the
iterator). -/
def processAnthContent (env : Env) : List AContent → AnthState → Except QErr AnthState
  | [], st => .ok st
  | AContent.text t :: rest, st =>
      processAnthContent env rest { st with finalText := st.finalText ++ [t] }
  | AContent.toolUse name input textAttr :: rest, st =>
      match env.host name input with
      | .error e => .error (.toolError e)
      | .ok result =>
        let ft1 := st.finalText ++ ["[调用工具 " ++ name ++ "，参数 " ++ env.pyStr input ++ "]"]
        let msgs1 :=
          match textAttr with
          | some t => if t = "" then st.messages else st.messages ++ [AMsg.assistant t]
          | none => st.messages
        let msgs2 := msgs1 ++ [AMsg.user result.content]
        let ev1 := st.events ++ [Event.invoke name input, Event.resultTurn]
        match st.script with
        | [] => .error .noResponse
        | r :: script' =>
          match firstText r.content with
          | .error e => .error e
          | .ok t0 =>
            processAnthContent env rest
              { messages := msgs2
                finalText := ft1 ++ [t0]
                script := script'
                events := ev1 ++ [Event.submit] }

/-- Observable outcome of one anthropic-path query: the returned
transcript, the final conversation and the ghost trace. -/
structure AnthRun where
  transcript : String
  messages : List AMsg
  events : List Event
  deriving DecidableEq

/-- `_process_anthropic_query`: seed the conversation with the user query,
perform the initial `create` (first scripted response), run the block loop
on that response's content, and join the transcript with newlines. -/
def processAnthropicQuery (env : Env) (query : String) (script : List AnthResponse) :
    Except QErr AnthRun :=
  match script with
  | [] => .error .noResponse
  | r0 :: rest =>
    match processAnthContent env r0.content
        { messages := [AMsg.user query], finalText := [], script := rest,
          events := [Event.submit] } with
    | .error e => .error e
    | .ok st =>
      .ok { transcript := String.intercalate "\n" st.finalText,
            messages := st.messages, events := st.events }

/-- Expected ghost trace of the block loop on a given block list: each
`tool_use` block contributes one invocation, one result-turn append and one
fresh submit; text blocks contribute nothing. -/
def anthBlockEvents : List AContent → List Event
  | [] => []
  | AContent.text _ :: rest => anthBlockEvents rest
  | AContent.toolUse name input _ :: rest =>
      Event.invoke name input :: Event.resultTurn :: Event.submit :: anthBlockEvents rest

/-- Count of `user`-role messages in an anthropic-path conversation. -/
def countUserA (ms : List AMsg) : Nat :=
  ms.countP fun m => match m with | .user _ => true | _ => false

/-! ### Variant B: the openai path -/

/-- One tool-call entry of an OpenAI response message: a call id, a
function name and a JSON-encoded argument string. -/
structure OAIToolCall where
  id : String
  name : String
  arguments : String
  deriving DecidableEq

/-- The message of `response.choices[0]`: optional text content and the
list of tool calls (Python `None` and `[]` are both falsy for the loop
condition, so both are modelled as the empty list). -/
structure OAIMessage where
  content : Option String
  tool_calls : List OAIToolCall
  deriving DecidableEq

/-- A message of the openai-path conversation. -/
inductive OAIMsg where
  | user (content : String)
  | assistant (content : Option String) (tool_calls : List OAIToolCall)
  | tool (tool_call_id : String) (content : String)
  deriving DecidableEq

/-- State threaded through `_process_openai_query`: conversation,
transcript segments, ghost trace. -/
structure OAIState where
  messages : List OAIMsg
  finalText : List String
  events : List Event
  deriving DecidableEq

/-- Diagnostic text built on a `json.JSONDecodeError` (with `e` the
exception's string form and `raw` the undecodable argument string). -/
def decodeErrorMessage (e raw : String) : String :=
  "解析工具参数时出错: " ++ e ++ "\n原始参数: " ++ raw

/-- The invocation annotation: tool name, plus pretty-printed arguments
when the decoded argument object is truthy. -/
def toolCallMessage (env : Env) (name : String) (toolArgs : Args) : String :=
  "调用工具: " ++ name ++
    (if env.argsTruthy toolArgs then "\n参数:\n" ++ env.jsonDumps toolArgs else "")

/-- Body of the `for tool_call in message.tool_calls:` loop for one call:
decode the arguments (on failure append one diagnostic segment and
`continue`), append the invocation annotation, invoke the tool, append the
result annotation, then append an assistant turn carrying the ORIGINAL
message (content and all tool-call entries) and a tool-role turn carrying
`result.content` for this call id. -/
def processOAICall (env : Env) (message : OAIMessage) (tc : OAIToolCall) (st : OAIState) :
    Except QErr OAIState :=
  match env.jsonLoads tc.arguments with
  | .error e =>
      .ok { st with finalText :=
              st.finalText ++ [format_message env.ts "system" (decodeErrorMessage e tc.arguments) false] }
  | .ok toolArgs =>
      let ft1 := st.finalText ++ [format_message env.ts "system" (toolCallMessage env tc.name toolArgs) true]
      match env.host tc.name toolArgs with
      | .error e => .error (.toolError e)
      | .ok result =>
        .ok { messages := st.messages ++
                [OAIMsg.assistant message.content message.tool_calls,
                 OAIMsg.tool tc.id result.content]
              finalText := ft1 ++ [format_message env.ts "system" ("工具返回结果:\n" ++ result.content) true]
              events := st.events ++ [Event.invoke tc.name toolArgs, Event.resultTurn] }

/-- The whole `for tool_call in message.tool_calls:` loop over one batch. -/
def processOAIBatch (env : Env) (message : OAIMessage) :
    List OAIToolCall → OAIState → Except QErr OAIState
  | [], st => .ok st
  | tc :: rest, st =>
    match processOAICall env message tc st with
    | .error e => .error e
    | .ok st' => processOAIBatch env message rest st'

/-- `if message.content: final_text.append(format_message("assistant",
message.content))` — Python truthiness: `None` and the empty string are
both skipped. -/
def appendAssistantContent (env : Env) (m : OAIMessage) (st : OAIState) : OAIState :=
  match m.content with
  | some c =>
      if c = "" then st
      else { st with finalText := st.finalText ++ [format_message env.ts "assistant" c false] }
  | none => st

/-- The `while message.tool_calls:` loop: process the batch, perform a
fresh `create` (consuming the next scripted message), append its content
when truthy, and re-test the loop condition on the new message. -/
def processOAILoop (env : Env) : List OAIMessage → OAIMessage → OAIState → Except QErr OAIState
  | [], message, st =>
    if message.tool_calls = [] then .ok st
    else
      match processOAIBatch env message message.tool_calls st with
      | .error e => .error e
      | .ok _ => .error .noResponse
  | m :: script', message, st =>
    if message.tool_calls = [] then .ok st
    else
      match processOAIBatch env message message.tool_calls st with
      | .error e => .error e
      | .ok st1 =>
        processOAILoop env script' m
          (appendAssistantContent env m { st1 with events := st1.events ++ [Event.submit] })

/-- Observable outcome of one openai-path query. -/
structure OAIRun where
  transcript : String
  messages : List OAIMsg
  events : List Event
  deriving DecidableEq

/-- `_process_openai_query`: seed the conversation with the user query,
perform the initial `create` (first scripted message), append its content
when truthy, run the while loop, and join the transcript with the empty
separator. -/
def processOpenAIQuery (env : Env) (query : String) (script : List OAIMessage) :
    Except QErr OAIRun :=
  match script with
  | [] => .error .noResponse
  | m :: rest =>
    let st0 : OAIState :=
      { messages := [OAIMsg.user query], finalText := [], events := [Event.submit] }
    match processOAILoop env rest m (appendAssistantContent env m st0) with
    | .error e => .error e
    | .ok st =>
      .ok { transcript := String.join st.finalText,
            messages := st.messages, events := st.events }

/-- Count of `tool`-role messages in an openai-path conversation. -/
def countToolRole (ms : List OAIMsg) : Nat :=
  ms.countP fun m => match m with | .tool _ _ => true | _ => false

/-- Count of `assistant`-role messages in an openai-path conversation. -/
def countAssistantO (ms : List OAIMsg) : Nat :=
  ms.countP fun m => match m with | .assistant _ _ => true | _ => false

/-- Does decoding this call's arguments fail in the given environment? -/
def decodeFails (env : Env) (tc : OAIToolCall) : Bool :=
  match env.jsonLoads tc.arguments with
  | .error _ => true
  | .ok _ => false

/-! ### Tool-descriptor adaptation, server connection, chat loop -/

/-- A tool descriptor as reported by the tool host. -/
structure ToolDescriptor where
  name : String
  description : String
  inputSchema : String
  deriving DecidableEq

/-- The `name`/`description`/`parameters` record shared by both adapted
shapes. -/
structure FunctionSchema where
  name : String
  description : String
  parameters : String
  deriving DecidableEq

/-- A provider-native tool schema: the flat dict, or the wrapped dict with
a `type` tag and a nested function record. -/
inductive AdaptedTool where
  | flat (f : FunctionSchema)
  | wrapped (type : String) (f : FunctionSchema)
  deriving DecidableEq

/-- The two model providers. -/
inductive Provider where
  | anthropic
  | openai
  deriving DecidableEq

/-- The tool-list adaptation performed at the top of `process_query`:
the flat shape for anthropic, the `type: "function"` wrapped shape for
openai; `tool.inputSchema` is passed through untouched in both. -/
def adaptTool (provider : Provider) (t : ToolDescriptor) : AdaptedTool :=
  match provider with
  | .anthropic =>
      .flat { name := t.name, description := t.description, parameters := t.inputSchema }
  | .openai =>
      .wrapped "function"
        { name := t.name, description := t.description, parameters := t.inputSchema }

/-- Shape the spec states for the anthropic provider: the flat
`name`/`description`/`parameters` record built from the descriptor, schema
passed through opaquely. -/
def specFlatShape (t : ToolDescriptor) : AdaptedTool :=
  .flat { name := t.name, description := t.description, parameters := t.inputSchema }

/-- Shape the spec states for the openai provider: `type: "function"`
wrapping the same record, schema passed through opaquely. -/
def specWrappedShape (t : ToolDescriptor) : AdaptedTool :=
  .wrapped "function"
    { name := t.name, description := t.description, parameters := t.inputSchema }

/-- Externally visible effects of `connect_to_server` after the extension
check passes: spawning the server process and the session set-up calls. -/
inductive ConnectEffect where
  | spawn (command : String) (script : String)
  | initSession
  | listTools
  deriving DecidableEq

/-- Outcome of `connect_to_server`: the (possibly updated) session slot,
the effects performed, and the raised `ValueError` message if any. -/
structure ConnectOutcome where
  session : Option Nat
  effects : List ConnectEffect
  error : Option String
  deriving DecidableEq

/-- Python's `str.endswith`: is the second string a suffix of the first
(modelled on the character sequences)? -/
def pyEndsWith (s suffix : String) : Bool :=
  List.isSuffixOf suffix.data s.data

/-- The `ValueError` message raised on a bad script extension. -/
def valueErrorMsg : String := "服务器脚本必须是.py或.js文件"

/-- `connect_to_server`: check the script extension first; on failure raise
`ValueError` with nothing spawned and `self.session` untouched; otherwise
pick the command, spawn the stdio transport, create the session (modelled
as filling the session slot) and initialize and list tools. -/
def connectToServer (session : Option Nat) (path : String) : ConnectOutcome :=
  let isPython := pyEndsWith path ".py"
  let isJs := pyEndsWith path ".js"
  if !(isPython || isJs) then
    { session := session, effects := [], error := some valueErrorMsg }
  else
    let command := if isPython then "python" else "node"
    { session := some 0,
      effects := [ConnectEffect.spawn command path, ConnectEffect.initSession,
                  ConnectEffect.listTools],
      error := none }

/-- Printable form of a query-aborting error, standing for Python's
`str(e)` in the chat loop's diagnostic. -/
def qerrString : QErr → String
  | .toolError m => m
  | .noResponse => "no response"
  | .badContent => "bad content"

/-- Python's `str.strip`: drop whitespace from both ends (modelled on the
character sequence). -/
def pyStrip (s : String) : String :=
  ⟨((s.data.dropWhile Char.isWhitespace).reverse.dropWhile Char.isWhitespace).reverse⟩

/-- Python's `str.lower` (modelled on the character sequence). -/
def pyLower (s : String) : String :=
  ⟨s.data.map Char.toLower⟩

/-- `chat_loop` over a finite scripted sequence of input lines: strip each
line, stop on `quit` (case-insensitive), otherwise run the query processor
and print either its result or the caught exception's diagnostic, then
continue with the next line.  Returns the list of printed outputs. -/
def chatLoop (pq : String → Except QErr String) : List String → List String
  | [] => []
  | q :: rest =>
    let query := pyStrip q
    if pyLower query = "quit" then []
    else
      (match pq query with
       | .ok r => r
       | .error e => "\n错误: " ++ qerrString e) :: chatLoop pq rest

/-! ### Concrete instances used in witnesses and counterexamples -/

/-- A benign concrete environment: the host always answers `res`, decoding
fails exactly on the argument string `bad`, and the clock reads
`12:00:00`. -/
def envW : Env :=
  { host := fun _ _ => .ok { content := "res" },
    jsonLoads := fun s => if s = "bad" then .error "err" else .ok s,
    jsonDumps := fun a => a,
    pyStr := fun a => a,
    argsTruthy := fun _ => true,
    ts := "12:00:00" }

/-- An environment whose tool host fails every invocation. -/
def envErrW : Env :=
  { envW with host := fun _ _ => .error "boom" }

/-- Conversation state right after the seed and the initial submit of the
openai path. -/
def stW0 : OAIState :=
  { messages := [OAIMsg.user "q"], finalText := [], events := [Event.submit] }

/-- An anthropic response containing TWO `tool_use` blocks, followed by
two scripted text-only follow-up responses. -/
def scriptC1 : List AnthResponse :=
  [⟨[AContent.toolUse "a" "x" none, AContent.toolUse "b" "y" none]⟩,
   ⟨[AContent.text "t1"]⟩, ⟨[AContent.text "t2"]⟩]

/-- An anthropic script whose FOLLOW-UP response still contains a
`tool_use` block. -/
def scriptC3cex : List AnthResponse :=
  [⟨[AContent.toolUse "a" "x" none]⟩,
   ⟨[AContent.text "t", AContent.toolUse "b" "y" none]⟩]

/-- Is a response made of text blocks only (no tool invocations)? -/
def textOnly (r : AnthResponse) : Bool :=
  r.content.all fun b => match b with
    | AContent.text _ => true
    | AContent.toolUse _ _ _ => false

/-- An openai message carrying a batch of two decodable tool calls. -/
def msgC2 : OAIMessage := ⟨none, [⟨"id1", "a", "x"⟩, ⟨"id2", "b", "y"⟩]⟩

/-- An openai message with a single decodable tool call. -/
def msgOneCallW : OAIMessage := ⟨none, [⟨"i1", "a", "x"⟩]⟩

/-- A final openai message: text only, no tool calls. -/
def msgDoneW : OAIMessage := ⟨some "done", []⟩

/-- A tool call whose argument string does not decode under `envW`. -/
def badCallW : OAIToolCall := ⟨"i1", "a", "bad"⟩

/-- A tool call whose argument string decodes under `envW`. -/
def goodCallW : OAIToolCall := ⟨"i2", "b", "x"⟩

/-- An openai message whose every tool call fails to decode under `envW`. -/
def msgAllBadW : OAIMessage := ⟨none, [⟨"i1", "a", "bad"⟩, ⟨"i2", "b", "bad"⟩]⟩

/-- State of the openai loop after one single-call round under `envW`
(batch on `msgOneCallW`, one resubmit answered by `msgDoneW`). -/
def loopStW : OAIState :=
  { messages := [OAIMsg.user "q", OAIMsg.assistant none [⟨"i1", "a", "x"⟩],
                 OAIMsg.tool "i1" "res"],
    finalText := ["[12:00:00 Tool] 调用工具: a\n参数:\nx\n",
                  "[12:00:00 Tool] 工具返回结果:\nres\n", "[12:00:00 AI] done\n"],
    events := [Event.submit, Event.invoke "a" "x", Event.resultTurn, Event.submit] }

/-- Outcome of the one-tool-call anthropic query under `envW` with
follow-up text `t1`. -/
def anthRunW : AnthRun :=
  { transcript := "[调用工具 a，参数 x]\nt1",
    messages := [AMsg.user "q", AMsg.user "res"],
    events := [Event.submit, Event.invoke "a" "x", Event.resultTurn, Event.submit] }

/-- Same query as `anthRunW` but with follow-up text `zz`: the transcript
differs, the event trace does not. -/
def anthRunW2 : AnthRun :=
  { transcript := "[调用工具 a，参数 x]\nzz",
    messages := [AMsg.user "q", AMsg.user "res"],
    events := [Event.submit, Event.invoke "a" "x", Event.resultTurn, Event.submit] }

/-- Outcome of the one-tool-call openai query under `envW`. -/
def oaiRunW : OAIRun :=
  { transcript := "[12:00:00 Tool] 调用工具: a\n参数:\nx\n[12:00:00 Tool] 工具返回结果:\nres\n[12:00:00 AI] done\n",
    messages := [OAIMsg.user "q", OAIMsg.assistant none [⟨"i1", "a", "x"⟩],
                 OAIMsg.tool "i1" "res"],
    events := [Event.submit, Event.invoke "a" "x", Event.resultTurn, Event.submit] }

/-- The openai message used when instantiating decode-failure statements. -/
def msgBadOneW : OAIMessage := ⟨none, [⟨"i1", "a", "bad"⟩]⟩

/-- A concrete query processor for chat-loop witnesses: fails on `boom`,
echoes everything else. -/
def pqW : String → Except QErr String :=
  fun q => if q = "boom" then .error (.toolError "kaput") else .ok q

/-! ### Helper lemmas -/

/-- The ghost trace of the anthropic block loop extends the
incoming trace by exactly `anthBlockEvents blocks`. -/
theorem processAnthContent_events (env : Env) :
    ∀ (blocks : List AContent) (st st' : AnthState),
      processAnthContent env blocks st = Except.ok st' →
      st'.events = st.events ++ anthBlockEvents blocks := by
  intro blocks
  induction blocks with
  | nil =>
      intro st st' h
      simp only [processAnthContent] at h
      cases h
      simp [anthBlockEvents]
  | cons b rest ih =>
      intro st st' h
      cases b with
      | text t =>
          simp only [processAnthContent] at h
          simpa [anthBlockEvents] using ih _ _ h
      | toolUse name input textAttr =>
          simp only [processAnthContent] at h
          split at h
          · simp at h
          · split at h
            · simp at h
            · split at h
              · simp at h
              · have h2 := ih _ _ h
                rw [h2]
                simp [anthBlockEvents]

/-- Across the anthropic block loop, user-role message appends
and tool invocations grow in lockstep. -/
theorem processAnthContent_userCount (env : Env) :
    ∀ (blocks : List AContent) (st st' : AnthState),
      processAnthContent env blocks st = Except.ok st' →
      countUserA st'.messages + countInvoke st.events
        = countUserA st.messages + countInvoke st'.events := by
  intro blocks
  induction blocks with
  | nil =>
      intro st st' h
      simp only [processAnthContent] at h
      cases h
      omega
  | cons b rest ih =>
      intro st st' h
      cases b with
      | text t =>
          simp only [processAnthContent] at h
          simpa using ih _ _ h
      | toolUse name input textAttr =>
          simp only [processAnthContent] at h
          split at h
          · simp at h
          · split at h
            · simp at h
            · split at h
              · simp at h
              · have h2 := ih _ _ h
                rcases textAttr with _ | t
                · simp [countUserA, countInvoke, List.countP_append,
                    List.countP_cons] at h2 ⊢
                  omega
                · by_cases ht : t = "" <;>
                    simp [countUserA, countInvoke, List.countP_append,
                      List.countP_cons, ht] at h2 ⊢ <;>
                    omega

/-- In the per-block trace, submits and result-turn appends each
match invocations one-to-one. -/
theorem anthBlockEvents_counts (blocks : List AContent) :
    countSubmit (anthBlockEvents blocks) = countInvoke (anthBlockEvents blocks) ∧
    countResultTurn (anthBlockEvents blocks) = countInvoke (anthBlockEvents blocks) := by
  induction blocks with
  | nil => simp [anthBlockEvents, countSubmit, countInvoke, countResultTurn]
  | cons b rest ih =>
      cases b with
      | text t => simpa [anthBlockEvents] using ih
      | toolUse name input textAttr =>
          obtain ⟨ih1, ih2⟩ := ih
          simp [anthBlockEvents, countSubmit, countInvoke, countResultTurn,
            List.countP_cons] at ih1 ih2 ⊢
          omega

/-- A successful anthropic query performs the initial submit and
then exactly the per-block trace of the FIRST response; later responses
contribute no events. -/
theorem processAnthropicQuery_events (env : Env) (query : String) (r0 : AnthResponse)
    (rest : List AnthResponse) (run : AnthRun)
    (h : processAnthropicQuery env query (r0 :: rest) = Except.ok run) :
    run.events = Event.submit :: anthBlockEvents r0.content := by
  simp only [processAnthropicQuery] at h
  split at h
  · simp at h
  next st heq =>
    cases h
    have h2 := processAnthContent_events env r0.content _ _ heq
    simpa using h2

/-- A successful anthropic query has exactly one user-role turn
per invocation beyond the seed turn, and one result-turn append per
invocation. -/
theorem processAnthropicQuery_counts (env : Env) (query : String)
    (script : List AnthResponse) (run : AnthRun)
    (h : processAnthropicQuery env query script = Except.ok run) :
    countUserA run.messages = 1 + countInvoke run.events ∧
    countResultTurn run.events = countInvoke run.events := by
  cases script with
  | nil => simp [processAnthropicQuery] at h
  | cons r0 rest =>
      simp only [processAnthropicQuery] at h
      split at h
      · simp at h
      next st heq =>
        cases h
        constructor
        · have h2 := processAnthContent_userCount env r0.content _ _ heq
          simp [countUserA, countInvoke, List.countP_cons] at h2
          simpa using h2
        · have hev := processAnthContent_events env r0.content _ _ heq
          obtain ⟨hc1, hc2⟩ := anthBlockEvents_counts r0.content
          simp only [hev]
          simp [countResultTurn, countInvoke, List.countP_cons, List.countP_append] at hc2 ⊢
          omega

/-- Appending assistant text to the transcript leaves the
conversation untouched. -/
theorem appendAssistantContent_messages (env : Env) (m : OAIMessage) (s : OAIState) :
    (appendAssistantContent env m s).messages = s.messages := by
  unfold appendAssistantContent
  split
  · split <;> rfl
  · rfl

/-- Appending assistant text to the transcript leaves the ghost
trace untouched. -/
theorem appendAssistantContent_events (env : Env) (m : OAIMessage) (s : OAIState) :
    (appendAssistantContent env m s).events = s.events := by
  unfold appendAssistantContent
  split
  · split <;> rfl
  · rfl

/-- Processing one openai tool call preserves the balance between
tool-role turns and invocations, and between result-turn events and
invocations. -/
theorem processOAICall_counts (env : Env) (message : OAIMessage) (tc : OAIToolCall)
    (st st' : OAIState) (h : processOAICall env message tc st = Except.ok st') :
    (countToolRole st'.messages + countInvoke st.events
       = countToolRole st.messages + countInvoke st'.events) ∧
    (countResultTurn st'.events + countInvoke st.events
       = countResultTurn st.events + countInvoke st'.events) := by
  simp only [processOAICall] at h
  split at h
  · cases h
    constructor <;> rfl
  · split at h
    · simp at h
    · cases h
      constructor <;>
        simp [countToolRole, countInvoke, countResultTurn, List.countP_append,
          List.countP_cons] <;>
        omega

/-- Processing one openai batch preserves the balance between
tool-role turns and invocations, and between result-turn events and
invocations. -/
theorem processOAIBatch_counts (env : Env) (message : OAIMessage) :
    ∀ (calls : List OAIToolCall) (st st' : OAIState),
      processOAIBatch env message calls st = Except.ok st' →
      (countToolRole st'.messages + countInvoke st.events
         = countToolRole st.messages + countInvoke st'.events) ∧
      (countResultTurn st'.events + countInvoke st.events
         = countResultTurn st.events + countInvoke st'.events) := by
  intro calls
  induction calls with
  | nil =>
      intro st st' h
      simp only [processOAIBatch] at h
      cases h
      constructor <;> rfl
  | cons tc rest ih =>
      intro st st' h
      simp only [processOAIBatch] at h
      split at h
      · simp at h
      next stm heq =>
        obtain ⟨a1, a2⟩ := processOAICall_counts env message tc st stm heq
        obtain ⟨b1, b2⟩ := ih stm st' h
        exact ⟨by omega, by omega⟩

/-- The openai while-loop preserves the balance between tool-role
turns and invocations, and between result-turn events and invocations. -/
theorem processOAILoop_counts (env : Env) :
    ∀ (script : List OAIMessage) (message : OAIMessage) (st st' : OAIState),
      processOAILoop env script message st = Except.ok st' →
      (countToolRole st'.messages + countInvoke st.events
         = countToolRole st.messages + countInvoke st'.events) ∧
      (countResultTurn st'.events + countInvoke st.events
         = countResultTurn st.events + countInvoke st'.events) := by
  intro script
  induction script with
  | nil =>
      intro message st st' h
      simp only [processOAILoop] at h
      split at h
      · cases h; constructor <;> rfl
      · split at h <;> simp at h
  | cons m rest ih =>
      intro message st st' h
      simp only [processOAILoop] at h
      split at h
      · cases h; constructor <;> rfl
      · split at h
        · simp at h
        next st1 heq =>
          obtain ⟨a1, a2⟩ := processOAIBatch_counts env message message.tool_calls st st1 heq
          obtain ⟨b1, b2⟩ := ih m _ st' h
          simp only [appendAssistantContent_messages, appendAssistantContent_events] at b1 b2
          simp [countToolRole, countInvoke, countResultTurn, List.countP_append,
            List.countP_cons] at a1 a2 b1 b2 ⊢
          exact ⟨by omega, by omega⟩

/-- Processing one openai tool call only appends to the ghost
trace. -/
theorem processOAICall_events_extend (env : Env) (message : OAIMessage) (tc : OAIToolCall)
    (st st' : OAIState) (h : processOAICall env message tc st = Except.ok st') :
    ∃ d, st'.events = st.events ++ d := by
  simp only [processOAICall] at h
  split at h
  · cases h
    exact ⟨[], by simp⟩
  · split at h
    · simp at h
    · cases h
      exact ⟨_, rfl⟩

/-- Processing one openai batch only appends to the ghost trace. -/
theorem processOAIBatch_events_extend (env : Env) (message : OAIMessage) :
    ∀ (calls : List OAIToolCall) (st st' : OAIState),
      processOAIBatch env message calls st = Except.ok st' →
      ∃ d, st'.events = st.events ++ d := by
  intro calls
  induction calls with
  | nil =>
      intro st st' h
      simp only [processOAIBatch] at h
      cases h
      exact ⟨[], by simp⟩
  | cons tc rest ih =>
      intro st st' h
      simp only [processOAIBatch] at h
      split at h
      · simp at h
      next stm heq =>
        obtain ⟨d1, hd1⟩ := processOAICall_events_extend env message tc st stm heq
        obtain ⟨d2, hd2⟩ := ih stm st' h
        exact ⟨d1 ++ d2, by rw [hd2, hd1, List.append_assoc]⟩

/-- The openai while-loop only appends to the ghost trace. -/
theorem processOAILoop_events_extend (env : Env) :
    ∀ (script : List OAIMessage) (message : OAIMessage) (st st' : OAIState),
      processOAILoop env script message st = Except.ok st' →
      ∃ d, st'.events = st.events ++ d := by
  intro script
  induction script with
  | nil =>
      intro message st st' h
      simp only [processOAILoop] at h
      split at h
      · cases h; exact ⟨[], by simp⟩
      · split at h <;> simp at h
  | cons m rest ih =>
      intro message st st' h
      simp only [processOAILoop] at h
      split at h
      · cases h; exact ⟨[], by simp⟩
      · split at h
        · simp at h
        next st1 heq =>
          obtain ⟨d1, hd1⟩ := processOAIBatch_events_extend env message message.tool_calls st st1 heq
          obtain ⟨d2, hd2⟩ := ih m _ st' h
          rw [appendAssistantContent_events] at hd2
          refine ⟨d1 ++ [Event.submit] ++ d2, ?_⟩
          rw [hd2]
          simp [hd1, List.append_assoc]

/-- A successful loop round entered on a message that does carry
tool calls performs at least one further submit. -/
theorem processOAILoop_submit_progress (env : Env) :
    ∀ (script : List OAIMessage) (message : OAIMessage) (st st' : OAIState),
      message.tool_calls ≠ [] →
      processOAILoop env script message st = Except.ok st' →
      1 + countSubmit st.events ≤ countSubmit st'.events := by
  intro script
  cases script with
  | nil =>
      intro message st st' hne h
      simp only [processOAILoop] at h
      rw [if_neg hne] at h
      split at h <;> simp at h
  | cons m rest =>
      intro message st st' hne h
      simp only [processOAILoop] at h
      rw [if_neg hne] at h
      split at h
      · simp at h
      next st1 heq =>
        obtain ⟨d1, hd1⟩ := processOAIBatch_events_extend env message message.tool_calls st st1 heq
        obtain ⟨d2, hd2⟩ := processOAILoop_events_extend env rest m _ st' h
        rw [appendAssistantContent_events] at hd2
        rw [hd2]
        simp [hd1, countSubmit, List.countP_append, List.countP_cons]
        omega

/-- A batch whose every call fails to decode completes normally
while leaving the conversation and the ghost trace unchanged. -/
theorem processOAIBatch_allFail (env : Env) (message : OAIMessage) :
    ∀ (calls : List OAIToolCall) (st : OAIState),
      calls.all (decodeFails env) = true →
      ∃ st', processOAIBatch env message calls st = Except.ok st' ∧
        st'.messages = st.messages ∧ st'.events = st.events := by
  intro calls
  induction calls with
  | nil =>
      intro st _
      exact ⟨st, rfl, rfl, rfl⟩
  | cons tc rest ih =>
      intro st hall
      simp only [List.all_cons, Bool.and_eq_true] at hall
      obtain ⟨h1, h2⟩ := hall
      unfold decodeFails at h1
      cases hj : env.jsonLoads tc.arguments with
      | ok a => rw [hj] at h1; simp at h1
      | error e =>
        obtain ⟨st', hb, hm, he⟩ := ih
          { st with finalText := st.finalText ++
              [format_message env.ts "system" (decodeErrorMessage e tc.arguments) false] } h2
        refine ⟨st', ?_, by simpa using hm, by simpa using he⟩
        simp only [processOAIBatch, processOAICall, hj]
        exact hb

/-- A successful openai query appends exactly one tool-role turn
and one result-turn event per invocation. -/
theorem processOpenAIQuery_counts (env : Env) (query : String)
    (script : List OAIMessage) (run : OAIRun)
    (h : processOpenAIQuery env query script = Except.ok run) :
    countToolRole run.messages = countInvoke run.events ∧
    countResultTurn run.events = countInvoke run.events := by
  cases script with
  | nil => simp [processOpenAIQuery] at h
  | cons m rest =>
      simp only [processOpenAIQuery] at h
      split at h
      · simp at h
      next st heq =>
        cases h
        obtain ⟨a1, a2⟩ := processOAILoop_counts env rest m _ st heq
        simp only [appendAssistantContent_messages, appendAssistantContent_events] at a1 a2
        simp [countToolRole, countInvoke, countResultTurn, List.countP_cons] at a1 a2
        exact ⟨by simpa using a1, by simpa using a2⟩

/-! ### Claims -/

/-- C1 (amended): in the Variant A path, every `tool_use` block of the
first response triggers exactly one invocation immediately followed by one
fresh submit — so at most one tool is invoked between consecutive submits —
but ALL tool-use blocks of that same response are processed, not only the
first: the trace is one invoke/result/submit triple per block. -/
theorem claim_C1 :
    ∀ (env : Env) (query : String) (r0 : AnthResponse) (rest : List AnthResponse)
      (run : AnthRun),
      processAnthropicQuery env query (r0 :: rest) = Except.ok run →
      run.events = Event.submit :: anthBlockEvents r0.content ∧
      countSubmit run.events = 1 + countInvoke run.events ∧
      countResultTurn run.events = countInvoke run.events := by
  intro env query r0 rest run h
  have he := processAnthropicQuery_events env query r0 rest run h
  obtain ⟨hc1, hc2⟩ := anthBlockEvents_counts r0.content
  refine ⟨he, ?_, ?_⟩ <;>
    rw [he] <;>
    simp [countSubmit, countInvoke, countResultTurn, List.countP_cons] at hc1 hc2 ⊢ <;>
    omega

/-- Witness for claim_C1: a concrete one-tool-call run. -/
theorem claim_C1_witness :
    anthRunW.events = Event.submit :: anthBlockEvents [AContent.toolUse "a" "x" none] ∧
    countSubmit anthRunW.events = 1 + countInvoke anthRunW.events ∧
    countResultTurn anthRunW.events = countInvoke anthRunW.events :=
  claim_C1 envW "q" ⟨[AContent.toolUse "a" "x" none]⟩ [⟨[AContent.text "t1"]⟩] anthRunW rfl

/-- C1 counterexample: one response carrying two tool-use blocks causes
TWO invocations, although every other scripted response is text-only —
refuting "never invoking a second tool from the same response turn". -/
theorem claim_C1_cex :
    (processAnthropicQuery envW "q" scriptC1).map (fun r => countInvoke r.events)
      = Except.ok 2 ∧
    (scriptC1.drop 1).all textOnly = true := ⟨rfl, rfl⟩

/-- C2 (code bug, evaluated at the failing input): for a batch of two
decoded tool calls the code appends the assistant message once per call —
two assistant turns interleaved with the two tool turns — where the claim
(and the provider protocol) requires exactly one assistant turn for the
whole batch. -/
theorem claim_C2_bug :
    (processOAIBatch envW msgC2 msgC2.tool_calls stW0).map
        (fun s => (countAssistantO s.messages, countToolRole s.messages))
      = Except.ok (2, 2) ∧
    msgC2.tool_calls.length = 2 := ⟨rfl, rfl⟩

/-- C3 (amended): Variant B returns the joined transcript exactly when
the extracted message carries no tool calls, and otherwise performs at
least one further submit before it can return; Variant A's submit/invoke
trace is a function of the first response alone, so tool calls contained
in any later response are never processed. -/
theorem claim_C3 :
    (∀ (env : Env) (script : List OAIMessage) (message : OAIMessage) (st : OAIState),
        message.tool_calls = [] → processOAILoop env script message st = Except.ok st) ∧
    (∀ (env : Env) (script : List OAIMessage) (message : OAIMessage) (st st' : OAIState),
        message.tool_calls ≠ [] → processOAILoop env script message st = Except.ok st' →
        1 + countSubmit st.events ≤ countSubmit st'.events) ∧
    (∀ (env : Env) (query : String) (r0 : AnthResponse)
        (rest rest' : List AnthResponse) (run run' : AnthRun),
        processAnthropicQuery env query (r0 :: rest) = Except.ok run →
        processAnthropicQuery env query (r0 :: rest') = Except.ok run' →
        run.events = run'.events) := by
  refine ⟨?_, ?_, ?_⟩
  · intro env script message st h
    cases script <;> simp [processOAILoop, h]
  · exact fun env script message st st' => processOAILoop_submit_progress env script message st st'
  · intro env query r0 rest rest' run run' h h'
    rw [processAnthropicQuery_events env query r0 rest run h,
      processAnthropicQuery_events env query r0 rest' run' h']

/-- Witness for claim_C3: concrete instantiations of its three parts. -/
theorem claim_C3_witness :
    processOAILoop envW [] msgDoneW stW0 = Except.ok stW0 ∧
    1 + countSubmit stW0.events ≤ countSubmit loopStW.events ∧
    anthRunW.events = anthRunW2.events :=
  ⟨claim_C3.1 envW [] msgDoneW stW0 rfl,
   claim_C3.2.1 envW [msgDoneW] msgOneCallW stW0 loopStW (by decide) rfl,
   claim_C3.2.2 envW "q" ⟨[AContent.toolUse "a" "x" none]⟩ [⟨[AContent.text "t1"]⟩]
     [⟨[AContent.text "zz"]⟩] anthRunW anthRunW2 rfl rfl⟩

/-- C3 counterexample: a Variant A run returns normally after a single
invocation even though the follow-up response still contains a tool-use
block — the loop does not continue until a tool-free response arrives. -/
theorem claim_C3_cex :
    (processAnthropicQuery envW "q" scriptC3cex).map (fun r => countInvoke r.events)
      = Except.ok 1 ∧
    (scriptC3cex.drop 1).all textOnly = false := ⟨rfl, rfl⟩

/-- C4 (amended): for a response holding one non-empty text reply and no
tool calls, both variants perform exactly one submit and invoke no tool;
Variant A returns the reply itself, while Variant B returns the reply
wrapped by `format_message` (timestamped role tag and trailing newline). -/
theorem claim_C4 :
    ∀ (env : Env) (query reply : String), reply ≠ "" →
      processAnthropicQuery env query [⟨[AContent.text reply]⟩]
        = Except.ok { transcript := reply, messages := [AMsg.user query],
                      events := [Event.submit] } ∧
      processOpenAIQuery env query [⟨some reply, []⟩]
        = Except.ok { transcript := format_message env.ts "assistant" reply false,
                      messages := [OAIMsg.user query], events := [Event.submit] } := by
  intro env query reply h
  constructor
  · rfl
  · simp only [processOpenAIQuery, appendAssistantContent]
    rw [if_neg h]
    rfl

/-- Witness for claim_C4 at the spec's "what is 2+2" scenario. -/
theorem claim_C4_witness :
    processAnthropicQuery envW "what is 2+2" [⟨[AContent.text "4"]⟩]
      = Except.ok { transcript := "4", messages := [AMsg.user "what is 2+2"],
                    events := [Event.submit] } ∧
    processOpenAIQuery envW "what is 2+2" [⟨some "4", []⟩]
      = Except.ok { transcript := format_message envW.ts "assistant" "4" false,
                    messages := [OAIMsg.user "what is 2+2"], events := [Event.submit] } :=
  claim_C4 envW "what is 2+2" "4" (by decide)

/-- C4 counterexample: Variant B's transcript for the reply `4` is the
timestamped line, not the bare reply, refuting "transcript equals the
model's single text reply" for the openai path. -/
theorem claim_C4_cex :
    (processOpenAIQuery envW "what is 2+2" [⟨some "4", []⟩]).map (fun r => r.transcript)
      = Except.ok "[12:00:00 AI] 4\n" ∧
    ("[12:00:00 AI] 4\n" : String) ≠ "4" := ⟨rfl, by decide⟩

/-- C5: in the Variant B path, a tool call whose JSON argument string
fails to decode produces exactly one diagnostic transcript segment and no
exception, the call is not invoked and the conversation is untouched, and
the remaining calls of the same batch are still processed. -/
theorem claim_C5 :
    ∀ (env : Env) (message : OAIMessage) (tc : OAIToolCall) (st : OAIState) (e : String),
      env.jsonLoads tc.arguments = Except.error e →
      processOAICall env message tc st
        = Except.ok { st with finalText := st.finalText ++
            [format_message env.ts "system" (decodeErrorMessage e tc.arguments) false] } ∧
      ∀ (rest : List OAIToolCall),
        processOAIBatch env message (tc :: rest) st
          = processOAIBatch env message rest { st with finalText := st.finalText ++
              [format_message env.ts "system" (decodeErrorMessage e tc.arguments) false] } := by
  intro env message tc st e h
  constructor
  · simp [processOAICall, h]
  · intro rest
    simp [processOAIBatch, processOAICall, h]

/-- Witness for claim_C5: one failing call followed by a sibling call. -/
theorem claim_C5_witness :
    processOAICall envW msgBadOneW badCallW stW0
      = Except.ok { stW0 with finalText := stW0.finalText ++
          [format_message envW.ts "system" (decodeErrorMessage "err" "bad") false] } ∧
    processOAIBatch envW msgBadOneW [badCallW, goodCallW] stW0
      = processOAIBatch envW msgBadOneW [goodCallW] { stW0 with finalText := stW0.finalText ++
          [format_message envW.ts "system" (decodeErrorMessage "err" "bad") false] } :=
  ⟨(claim_C5 envW msgBadOneW badCallW stW0 "err" rfl).1,
   (claim_C5 envW msgBadOneW badCallW stW0 "err" rfl).2 [goodCallW]⟩

/-- C6: in every successful run of either variant, the number of
tool-result turns appended to the conversation equals the number of tool
calls successfully decoded and invoked — user turns beyond the single seed
turn for Variant A, tool-role turns for Variant B — and result-turn events
match invocations one-to-one. -/
theorem claim_C6 :
    ∀ (envA envO : Env) (qa qo : String) (sa : List AnthResponse) (so : List OAIMessage)
      (ra : AnthRun) (ro : OAIRun),
      processAnthropicQuery envA qa sa = Except.ok ra →
      processOpenAIQuery envO qo so = Except.ok ro →
      (countUserA ra.messages = 1 + countInvoke ra.events ∧
       countResultTurn ra.events = countInvoke ra.events) ∧
      (countToolRole ro.messages = countInvoke ro.events ∧
       countResultTurn ro.events = countInvoke ro.events) := by
  intro envA envO qa qo sa so ra ro ha ho
  exact ⟨processAnthropicQuery_counts envA qa sa ra ha,
         processOpenAIQuery_counts envO qo so ro ho⟩

/-- Witness for claim_C6: concrete one-tool-call runs of both variants. -/
theorem claim_C6_witness :
    (countUserA anthRunW.messages = 1 + countInvoke anthRunW.events ∧
     countResultTurn anthRunW.events = countInvoke anthRunW.events) ∧
    (countToolRole oaiRunW.messages = countInvoke oaiRunW.events ∧
     countResultTurn oaiRunW.events = countInvoke oaiRunW.events) :=
  claim_C6 envW envW "q" "q" [⟨[AContent.toolUse "a" "x" none]⟩, ⟨[AContent.text "t1"]⟩]
    [msgOneCallW, msgDoneW] anthRunW oaiRunW rfl rfl

/-- C7: the tool-descriptor adaptation is a pure transform — adapting the
same descriptor twice for the same provider yields identical output — and
produces the flat shape for the anthropic provider and the `type:
"function"` wrapped shape for the openai provider, with the input schema
passed through untouched. -/
theorem claim_C7 (t : ToolDescriptor) :
    (adaptTool Provider.anthropic t = adaptTool Provider.anthropic t ∧
     adaptTool Provider.openai t = adaptTool Provider.openai t) ∧
    adaptTool Provider.anthropic t = specFlatShape t ∧
    adaptTool Provider.openai t = specWrappedShape t :=
  ⟨⟨rfl, rfl⟩, rfl, rfl⟩

/-- C8: when the tool host fails at invocation time the error propagates
out of the query processing as a whole-query failure (no error-bearing
result is folded into the conversation), and the chat loop converts any
such failure into a printed diagnostic and continues with the next query. -/
theorem claim_C8 :
    (∀ (pq : String → Except QErr String) (q : String) (qs : List String) (e : QErr),
        pyLower (pyStrip q) ≠ "quit" → pq (pyStrip q) = Except.error e →
        chatLoop pq (q :: qs) = ("\n错误: " ++ qerrString e) :: chatLoop pq qs) ∧
    (∀ (env : Env) (query name input : String) (textAttr : Option String)
        (brest : List AContent) (script : List AnthResponse) (m : String),
        env.host name input = Except.error m →
        processAnthropicQuery env query
            (⟨AContent.toolUse name input textAttr :: brest⟩ :: script)
          = Except.error (QErr.toolError m)) := by
  constructor
  · intro pq q qs e h1 h2
    simp only [chatLoop]
    rw [if_neg h1, h2]
  · intro env query name input textAttr brest script m h
    simp [processAnthropicQuery, processAnthContent, h]

/-- Witness for claim_C8: a failing query followed by a processed one,
and a host that fails the first invocation. -/
theorem claim_C8_witness :
    chatLoop pqW [" boom ", "next"]
      = ("\n错误: " ++ qerrString (QErr.toolError "kaput")) :: chatLoop pqW ["next"] ∧
    processAnthropicQuery envErrW "q" [⟨[AContent.toolUse "a" "x" none]⟩]
      = Except.error (QErr.toolError "boom") :=
  ⟨claim_C8.1 pqW " boom " ["next"] (QErr.toolError "kaput") (by decide) rfl,
   claim_C8.2 envErrW "q" "a" "x" none [] [] "boom" rfl⟩

/-- C9: `connect_to_server` raises the ValueError for every path ending
in neither `.py` nor `.js`, with no process spawned, no session set-up
effect performed, and the session slot returned untouched. -/
theorem claim_C9 :
    ∀ (session : Option Nat) (path : String),
      pyEndsWith path ".py" = false → pyEndsWith path ".js" = false →
      connectToServer session path
        = { session := session, effects := [], error := some valueErrorMsg } := by
  intro session path h1 h2
  simp [connectToServer, h1, h2]

/-- Witness for claim_C9 at a `.txt` path. -/
theorem claim_C9_witness :
    connectToServer none "server.txt"
      = { session := none, effects := [], error := some valueErrorMsg } :=
  claim_C9 none "server.txt" (by decide) (by decide)

/-- C10: a tool call whose arguments fail to decode leaves the
conversation unchanged — no assistant turn and no tool-role turn is
appended for it — and a batch whose every call fails to decode completes
with the message list exactly as before, so the next submit is made with
the same conversation. -/
theorem claim_C10 :
    (∀ (env : Env) (message : OAIMessage) (tc : OAIToolCall) (st : OAIState) (e : String),
        env.jsonLoads tc.arguments = Except.error e →
        ∃ st', processOAICall env message tc st = Except.ok st' ∧
          st'.messages = st.messages ∧ st'.events = st.events) ∧
    (∀ (env : Env) (message : OAIMessage) (st : OAIState),
        message.tool_calls.all (decodeFails env) = true →
        ∃ st', processOAIBatch env message message.tool_calls st = Except.ok st' ∧
          st'.messages = st.messages ∧ st'.events = st.events) := by
  constructor
  · intro env message tc st e h
    exact ⟨{ st with finalText := st.finalText ++
        [format_message env.ts "system" (decodeErrorMessage e tc.arguments) false] },
      by simp [processOAICall, h], rfl, rfl⟩
  · intro env message st h
    exact processOAIBatch_allFail env message message.tool_calls st h

/-- Witness for claim_C10: an all-failing two-call batch. -/
theorem claim_C10_witness :
    (∃ st', processOAICall envW msgAllBadW badCallW stW0 = Except.ok st' ∧
        st'.messages = stW0.messages ∧ st'.events = stW0.events) ∧
    (∃ st', processOAIBatch envW msgAllBadW msgAllBadW.tool_calls stW0 = Except.ok st' ∧
        st'.messages = stW0.messages ∧ st'.events = stW0.events) :=
  ⟨claim_C10.1 envW msgAllBadW badCallW stW0 "err" rfl,
   claim_C10.2 envW msgAllBadW stW0 rfl⟩
